import Mathlib

/-!
# Verification of the `search_swot` orbit pass-selection core

Shallow embedding of the orbit pass-selection and passage-time engine of the
`search_swot` repository (`src/search_swot/orbit.py`, `src/search_swot/widgets.py`,
`src/package/orf.py`).

Timestamps and durations are modelled as `Int` (nanoseconds, as in the numpy
`M8[ns]` / `m8[ns]` dtypes of the source).  Latitudes and longitudes are
modelled as `Int` samples; a non-finite (NaN) sample is `none` in a
`List (Option Int)`.  Fallible array accesses (Python `IndexError`) are
modelled with `Option`.
-/

namespace SearchSwot

/-! ## Cycle axis builder (`orbit.calculate_cycle_axis`)

The cycle→first-measurement mapping loaded from the ORF JSON file
(a Python `dict[int, datetime64]`) is modelled as an association list
`List (Nat × Int)`. -/

/-- Python `dict` lookup `cycles[k]` (keys of a `dict` are unique, so
first-match lookup agrees with the dictionary). -/
def lookupCycle (cycles : List (Nat × Int)) (k : Nat) : Option Int :=
  match cycles with
  | [] => none
  | (k', v) :: rest => if k' = k then some v else lookupCycle rest k

/-- The maximum key `max(cycles.keys())`: the key selected by `sorted(cycles)[-1]` in
`calculate_cycle_axis`. Zero for an empty mapping. -/
def maxKey (cycles : List (Nat × Int)) : Nat :=
  cycles.foldr (fun p acc => max p.1 acc) 0

/-- The value `cycles[keys[-1]]`: the timestamp of the last logged cycle. -/
def lastValue (cycles : List (Nat × Int)) : Int :=
  (lookupCycle cycles (maxKey cycles)).getD 0

/-- Number of undefined (not-logged) axis slots with index `≤ i`.  For an
undefined slot `i` this is its 1-based rank among the undefined slots in
ascending index order, i.e. its position in `np.arange(1, 1 + undefined.sum())`
in `calculate_cycle_axis`. -/
def undefinedRank (cycles : List (Nat × Int)) (i : Nat) : Nat :=
  ((List.range (i + 1)).filter (fun j => (lookupCycle cycles (j + 1)).isNone)).length

/-- Embedding of `calculate_cycle_axis`: slot `i` (cycle number `i + 1`) of the cycle axis.
A logged cycle keeps its logged timestamp; an undefined slot is filled with
`cycles[keys[-1]] + cycle_duration * rank` where `rank` is the slot's 1-based
rank among the undefined slots in ascending index order. -/
def cycleAxis (cycleDuration : Int) (cycles : List (Nat × Int)) (i : Nat) : Int :=
  match lookupCycle cycles (i + 1) with
  | some t => t
  | none => lastValue cycles + cycleDuration * (undefinedRank cycles i : Int)

/-- The 200-slot axis array built by `calculate_cycle_axis`. -/
def cycleAxisList (cycleDuration : Int) (cycles : List (Nat × Int)) : List Int :=
  (List.range 200).map (cycleAxis cycleDuration cycles)

/-! ### Helper lemmas about the cycle axis -/

theorem lookupCycle_le_maxKey (cycles : List (Nat × Int)) (k : Nat)
    (h : (lookupCycle cycles k).isSome = true) : k ≤ maxKey cycles := by
  induction cycles with
  | nil => simp [lookupCycle] at h
  | cons p rest ih =>
    rw [lookupCycle] at h
    by_cases hk : p.1 = k
    · simp only [maxKey, List.foldr_cons]
      omega
    · rw [if_neg hk] at h
      have := ih h
      simp only [maxKey, List.foldr_cons] at *
      omega

theorem maxKey_isSome (cycles : List (Nat × Int)) (hne : cycles ≠ []) :
    (lookupCycle cycles (maxKey cycles)).isSome = true := by
  induction cycles with
  | nil => exact absurd rfl hne
  | cons p rest ih =>
    have hmax : maxKey (p :: rest) = max p.1 (maxKey rest) := rfl
    rcases Nat.le_total (maxKey rest) p.1 with h | h
    · have hp : maxKey (p :: rest) = p.1 := by rw [hmax]; omega
      rw [hp, lookupCycle, if_pos rfl]
      rfl
    · by_cases hk : p.1 = maxKey (p :: rest)
      · rw [lookupCycle, if_pos hk]
        rfl
      · rw [lookupCycle, if_neg hk]
        have hrest : maxKey (p :: rest) = maxKey rest := by rw [hmax]; omega
        rw [hrest]
        rcases rest with _ | ⟨q, rest'⟩
        · exact absurd (by simp [maxKey] : p.1 = maxKey [p]) hk
        · exact ih (by simp)

theorem lookupCycle_none_of_maxKey_lt (cycles : List (Nat × Int)) (k : Nat)
    (h : maxKey cycles < k) : lookupCycle cycles k = none := by
  cases hl : lookupCycle cycles k with
  | none => rfl
  | some v =>
    have := lookupCycle_le_maxKey cycles k (by rw [hl]; rfl)
    omega

/-- Counting lemma `((range n).filter (m ≤ ·)).length = n - m`. -/
theorem length_filter_range_le (m n : Nat) :
    ((List.range n).filter (fun j => decide (m ≤ j))).length = n - m := by
  induction n with
  | zero => simp
  | succ n ih =>
    rw [List.range_succ, List.filter_append, List.length_append, ih]
    by_cases h : m ≤ n
    · simp [h]; omega
    · simp [h]; omega

/-- One more undefined slot: the rank increases by exactly one across an
undefined slot. -/
theorem undefinedRank_succ (cycles : List (Nat × Int)) (k : Nat)
    (h : lookupCycle cycles (k + 1) = none) :
    undefinedRank cycles k = undefinedRank cycles (k - 1) + 1 ∨ k = 0 := by
  rcases Nat.eq_zero_or_pos k with h0 | hpos
  · exact Or.inr h0
  · left
    have hk : k - 1 + 1 = k := by omega
    unfold undefinedRank
    rw [hk, List.range_succ, List.filter_append, List.length_append]
    simp [h]

/-- Evaluation of a logged slot. -/
theorem cycleAxis_of_some {d : Int} {cycles : List (Nat × Int)} {i : Nat} {t : Int}
    (h : lookupCycle cycles (i + 1) = some t) : cycleAxis d cycles i = t := by
  unfold cycleAxis
  rw [h]

/-- Evaluation of an extrapolated slot. -/
theorem cycleAxis_of_none {d : Int} {cycles : List (Nat × Int)} {i : Nat}
    (h : lookupCycle cycles (i + 1) = none) :
    cycleAxis d cycles i = lastValue cycles + d * (undefinedRank cycles i : Int) := by
  unfold cycleAxis
  rw [h]

/-- When the logged cycles are exactly `1..m`, slot `i` has rank `i + 1 - m`
among the undefined slots. -/
theorem undefinedRank_of_keys (cycles : List (Nat × Int)) (m : Nat)
    (hkeys : ∀ k, (lookupCycle cycles k).isSome = true ↔ 1 ≤ k ∧ k ≤ m) (i : Nat) :
    undefinedRank cycles i = (i + 1) - m := by
  unfold undefinedRank
  rw [List.filter_congr (q := fun j => decide (m ≤ j)), length_filter_range_le]
  intro j _
  have hs := hkeys (j + 1)
  cases hcase : lookupCycle cycles (j + 1) with
  | some v =>
    rw [hcase] at hs
    simp only [Option.isSome_some, true_iff] at hs
    have hmj : ¬ m ≤ j := by omega
    simp [hmj]
  | none =>
    rw [hcase] at hs
    simp only [Option.isSome_none, Bool.false_eq_true, false_iff, not_and, not_le] at hs
    have hmj : m ≤ j := by
      by_cases h1 : 1 ≤ j + 1
      · have := hs h1
        omega
      · omega
    simp [hmj]

/-- When the logged cycles are exactly `1..m` with `m ≥ 1`, the maximum
logged cycle number is `m`. -/
theorem maxKey_of_keys (cycles : List (Nat × Int)) (m : Nat) (hm : 1 ≤ m)
    (hkeys : ∀ k, (lookupCycle cycles k).isSome = true ↔ 1 ≤ k ∧ k ≤ m) :
    maxKey cycles = m := by
  have hmem : (lookupCycle cycles m).isSome = true := (hkeys m).mpr ⟨hm, Nat.le_refl m⟩
  have h1 : m ≤ maxKey cycles := lookupCycle_le_maxKey _ _ hmem
  have hne : cycles ≠ [] := by
    intro h
    rw [h] at hmem
    simp [lookupCycle] at hmem
  have h2 := (hkeys (maxKey cycles)).mp (maxKey_isSome cycles hne)
  omega

section ClaimOne

/-! ### C1: strict monotonicity of the cycle axis -/

/-- Claim C1, counterexample: the claim "for every non-empty cycle-to-date
mapping and every positive cycle_duration the axis built by
`calculate_cycle_axis` is strictly increasing at every index" is false:
for the mapping `{2 ↦ 0}` (cycle 1 unlogged) with cycle_duration 1, slot 0
is extrapolated to `0 + 1·1 = 1` while slot 1 keeps the logged value `0`,
so `CycleAxis[0] > CycleAxis[1]`. -/
theorem calculate_cycle_axis_not_always_increasing :
    ¬ (∀ (cycles : List (Nat × Int)) (d : Int),
        cycles ≠ [] → (∀ p ∈ cycles, 1 ≤ p.1 ∧ p.1 ≤ 200) → 0 < d →
        ∀ c, 2 ≤ c → c ≤ 200 →
          cycleAxis d cycles (c - 2) < cycleAxis d cycles (c - 1)) := by
  intro h
  have := h [(2, 0)] 1 (by simp) (by simp) (by norm_num) 2 (by norm_num) (by norm_num)
  revert this
  decide

/-- Claim C1, amended: when the logged cycles are exactly the contiguous range
`1..m` (`m ≥ 1`) with timestamps strictly increasing in the cycle number, and
the cycle duration is positive, the CycleAxis built by `calculate_cycle_axis`
is strictly increasing at every index: for all cycles `c` in `2..200`,
`CycleAxis[c-1] > CycleAxis[c-2]`. -/
theorem calculate_cycle_axis_increasing (cycles : List (Nat × Int)) (d : Int) (m : Nat)
    (hd : 0 < d) (hm : 1 ≤ m)
    (hkeys : ∀ k, (lookupCycle cycles k).isSome = true ↔ 1 ≤ k ∧ k ≤ m)
    (hmono : ∀ j k a b, lookupCycle cycles j = some a → lookupCycle cycles k = some b →
      j < k → a < b) :
    ∀ c, 2 ≤ c → c ≤ 200 → cycleAxis d cycles (c - 2) < cycleAxis d cycles (c - 1) := by
  have hrank := undefinedRank_of_keys cycles m hkeys
  have hmax := maxKey_of_keys cycles m hm hkeys
  intro c hc2 _
  obtain ⟨i, rfl⟩ : ∃ i, c = i + 2 := ⟨c - 2, by omega⟩
  have hi1 : i + 2 - 2 = i := by omega
  have hi2 : i + 2 - 1 = i + 1 := by omega
  rw [hi1, hi2]
  rcases Nat.lt_or_ge (i + 1) m with hlt | hge
  · obtain ⟨a, ha⟩ := Option.isSome_iff_exists.mp ((hkeys (i + 1)).mpr ⟨by omega, by omega⟩)
    obtain ⟨b, hb⟩ := Option.isSome_iff_exists.mp ((hkeys (i + 2)).mpr ⟨by omega, by omega⟩)
    rw [cycleAxis_of_some ha, cycleAxis_of_some (show lookupCycle cycles (i + 1 + 1) = some b
      from hb)]
    exact hmono _ _ _ _ ha hb (by omega)
  · rcases Nat.eq_or_lt_of_le hge with heq | hgt
    · obtain ⟨a, ha⟩ := Option.isSome_iff_exists.mp ((hkeys (i + 1)).mpr ⟨by omega, by omega⟩)
      have hnone : lookupCycle cycles (i + 1 + 1) = none := by
        cases hcase : lookupCycle cycles (i + 1 + 1) with
        | none => rfl
        | some v =>
          have := (hkeys (i + 1 + 1)).mp (by rw [hcase]; rfl)
          omega
      have hlast : lastValue cycles = a := by
        unfold lastValue
        rw [hmax, heq, ha]
        rfl
      rw [cycleAxis_of_some ha, cycleAxis_of_none hnone, hlast, hrank]
      have hr : i + 1 + 1 - m = 1 := by omega
      rw [hr]
      push_cast
      linarith
    · have hnone0 : lookupCycle cycles (i + 1) = none := by
        cases hcase : lookupCycle cycles (i + 1) with
        | none => rfl
        | some v =>
          have := (hkeys (i + 1)).mp (by rw [hcase]; rfl)
          omega
      have hnone1 : lookupCycle cycles (i + 1 + 1) = none := by
        cases hcase : lookupCycle cycles (i + 1 + 1) with
        | none => rfl
        | some v =>
          have := (hkeys (i + 1 + 1)).mp (by rw [hcase]; rfl)
          omega
      rw [cycleAxis_of_none hnone0, cycleAxis_of_none hnone1, hrank, hrank]
      have hr : i + 1 + 1 - m = (i + 1 - m) + 1 := by omega
      rw [hr]
      push_cast
      linarith

/-- Witness for **C1 (amended)** at the mapping `{1 ↦ 0}`, `m = 1`, duration 7,
`c = 2`. -/
theorem calculate_cycle_axis_increasing_witness :
    cycleAxis 7 [(1, 0)] (2 - 2) < cycleAxis 7 [(1, 0)] (2 - 1) :=
  calculate_cycle_axis_increasing [(1, 0)] 7 1 (by norm_num) (by norm_num)
    (fun k => by
      by_cases h : (1 : Nat) = k
      · simp [lookupCycle, h]
      · simp [lookupCycle, h]
        omega)
    (fun j k a b hj hk hjk => by
      simp only [lookupCycle] at hj hk
      split_ifs at hj hk
      simp_all)
    2 (by norm_num) (by norm_num)

end ClaimOne

section ClaimTwo

/-! ### C2: extrapolation fill formula and constant spacing -/

/-- Claim C2, counterexample: the claim "every undefined slot is filled with the
last logged timestamp plus `cycle_duration` times its 1-based rank among the
undefined slots, and consequently `axis[k] - axis[k-1] = cycle_duration` for
every index `k` beyond the last logged cycle" is false: for the mapping
`{1 ↦ 0, 3 ↦ 100}` with duration 1 the last logged cycle is 3 (axis index 2),
and at `k = 3` the code gives `axis[3] - axis[2] = 102 - 100 = 2`, because the
interior gap at index 1 consumes rank 1. -/
theorem cycleAxis_extrapolation_claim_false :
    ¬ (∀ (cycles : List (Nat × Int)) (d : Int) (i k : Nat),
        (lookupCycle cycles (i + 1) = none →
          cycleAxis d cycles i = lastValue cycles + d * (undefinedRank cycles i : Int)) ∧
        (maxKey cycles ≤ k → k ≤ 199 →
          cycleAxis d cycles k - cycleAxis d cycles (k - 1) = d)) := by
  intro h
  have := (h [(1, 0), (3, 100)] 1 0 3).2 (by decide) (by decide)
  revert this
  decide

/-- Claim C2, amended: every axis slot not present in the input mapping is
filled with the timestamp of the last logged cycle (the maximum cycle number
present) plus `cycle_duration` times the 1-based rank of that slot among all
undefined slots in ascending index order; and `axis[k] - axis[k-1]` equals
`cycle_duration` exactly for every index `k` at least two slots beyond the
last logged cycle (equivalently whenever both `k-1` and `k` are undefined
slots, i.e. `k ≥ maxKey + 1`); the first extrapolated step after the last
logged cycle equals `cycle_duration` times one plus the number of interior
gaps, so it equals `cycle_duration` only when there are no interior gaps. -/
theorem cycleAxis_extrapolation (cycles : List (Nat × Int)) (d : Int) (i k : Nat) :
    (lookupCycle cycles (i + 1) = none →
      cycleAxis d cycles i = lastValue cycles + d * (undefinedRank cycles i : Int)) ∧
    (maxKey cycles + 1 ≤ k → k ≤ 199 →
      cycleAxis d cycles k - cycleAxis d cycles (k - 1) = d) := by
  constructor
  · exact fun h => cycleAxis_of_none h
  · intro hk _
    have hb1 : lookupCycle cycles (k + 1) = none :=
      lookupCycle_none_of_maxKey_lt _ _ (by omega)
    have hb0 : lookupCycle cycles (k - 1 + 1) = none := by
      have he : k - 1 + 1 = k := by omega
      rw [he]
      exact lookupCycle_none_of_maxKey_lt _ _ (by omega)
    rw [cycleAxis_of_none hb1, cycleAxis_of_none hb0]
    rcases undefinedRank_succ cycles k hb1 with hr | h0
    · rw [hr]
      push_cast
      ring
    · omega

/-- Witness for **C2 (amended)** at the mapping `{1 ↦ 0}`, duration 5,
`i = 1`, `k = 7`. -/
theorem cycleAxis_extrapolation_witness :
    cycleAxis 5 [(1, 0)] 1 = lastValue [(1, 0)] + 5 * (undefinedRank [(1, 0)] 1 : Int) ∧
    cycleAxis 5 [(1, 0)] 7 - cycleAxis 5 [(1, 0)] 6 = 5 :=
  ⟨(cycleAxis_extrapolation [(1, 0)] 5 1 7).1 (by decide),
   (cycleAxis_extrapolation [(1, 0)] 5 1 7).2 (by decide) (by decide)⟩

end ClaimTwo

/-! ## Reference event log reader (`package/orf.py`)

A line of the ORF file either matches the record pattern — yielding an
`Entry` — or does not, in which case `Entry.from_line` returns `None`.  The
regular-expression parsing itself is plain text I/O; the stream is modelled
as the list of its per-line parse results `List (Option Entry)`. -/

/-- Embedding of `orf.Entry`: a parsed record of the ORF file.  The date is a millisecond
timestamp; the latitude is only ever compared with zero by `orf.load`. -/
structure Entry where
  date : Int
  cycle_number : Nat
  pass_number : Nat
  latitude : Int
  longitude : Int
deriving Repr, DecidableEq

/-- Python `dict` assignment `entries[k] = v`: replaces the value of an
existing key in place, otherwise appends the new key in insertion order. -/
def insertOrReplace (m : List (Nat × Int)) (k : Nat) (v : Int) : List (Nat × Int) :=
  match m with
  | [] => [(k, v)]
  | (k', v') :: rest =>
    if k' = k then (k, v) :: rest else (k', v') :: insertOrReplace rest k v

/-- One iteration of the `orf.load` loop.  The state is the mapping built so
far together with `previous_cycle` (initially `-1`). -/
def loadStep (st : List (Nat × Int) × Int) (line : Option Entry) :
    List (Nat × Int) × Int :=
  match line with
  | none => st
  | some e =>
    if e.cycle_number = 0 then st
    else if e.latitude = 0 then st
    else if st.2 ≠ (e.cycle_number : Int) then
      (insertOrReplace st.1 e.cycle_number e.date, (e.cycle_number : Int))
    else (st.1, (e.cycle_number : Int))

/-- Embedding of `orf.load`: fold the per-line loop over the parsed lines of the file and
return the cycle→first-measurement mapping. -/
def load (lines : List (Option Entry)) : List (Nat × Int) :=
  (lines.foldl loadStep ([], -1)).1

section ClaimNine

/-! ### C9: skip rules and first-of-run rule of `orf.load` -/

theorem loadStep_none (st : List (Nat × Int) × Int) : loadStep st none = st := rfl

theorem loadStep_skip (st : List (Nat × Int) × Int) (e : Entry)
    (h : e.cycle_number = 0 ∨ e.latitude = 0) : loadStep st (some e) = st := by
  rcases h with h | h
  · simp [loadStep, h]
  · by_cases h0 : e.cycle_number = 0
    · simp [loadStep, h0]
    · simp [loadStep, h0, h]

theorem loadStep_run (st : List (Nat × Int) × Int) (e1 e2 : Entry)
    (h0 : e1.cycle_number ≠ 0) (hlat : e1.latitude ≠ 0)
    (hc : e2.cycle_number = e1.cycle_number) :
    loadStep (loadStep st (some e1)) (some e2) = loadStep st (some e1) := by
  have hsnd : (loadStep st (some e1)).2 = (e1.cycle_number : Int) := by
    simp only [loadStep]
    rw [if_neg h0, if_neg hlat]
    split_ifs <;> rfl
  generalize hst1 : loadStep st (some e1) = st1 at hsnd ⊢
  by_cases h2 : e2.latitude = 0
  · exact loadStep_skip _ _ (Or.inr h2)
  · have h20 : e2.cycle_number ≠ 0 := by rw [hc]; exact h0
    simp only [loadStep]
    rw [if_neg h20, if_neg h2, hc, if_neg (by simp [hsnd]), ← hsnd]

/-- Claim C9: in `orf.load`, a line that does not match the record pattern
contributes nothing to the mapping; a matching record with
`cycle_number == 0` contributes nothing; a matching record with
`latitude == 0` contributes nothing; and for a run of two consecutive
matching records sharing the same cycle number, the second record leaves the
result exactly as it was after the first — only the first record observed in
file order determines that cycle's first-measurement time. -/
theorem load_skip_and_first_of_run :
    ∀ (pre post : List (Option Entry)) (e e1 e2 : Entry),
      (load (pre ++ none :: post) = load (pre ++ post)) ∧
      (e.cycle_number = 0 → load (pre ++ some e :: post) = load (pre ++ post)) ∧
      (e.latitude = 0 → load (pre ++ some e :: post) = load (pre ++ post)) ∧
      (e1.cycle_number ≠ 0 → e1.latitude ≠ 0 → e2.cycle_number = e1.cycle_number →
        load (pre ++ some e1 :: some e2 :: post) = load (pre ++ some e1 :: post)) := by
  intro pre post e e1 e2
  refine ⟨?_, ?_, ?_, ?_⟩
  · unfold load
    rw [List.foldl_append, List.foldl_append, List.foldl_cons, loadStep_none]
  · intro h
    unfold load
    rw [List.foldl_append, List.foldl_append, List.foldl_cons,
      loadStep_skip _ _ (Or.inl h)]
  · intro h
    unfold load
    rw [List.foldl_append, List.foldl_append, List.foldl_cons,
      loadStep_skip _ _ (Or.inr h)]
  · intro h0 hlat hc
    unfold load
    rw [List.foldl_append, List.foldl_append, List.foldl_cons, List.foldl_cons,
      List.foldl_cons, loadStep_run _ _ _ h0 hlat hc]

/-- Witness for **C9**: concrete one-record contexts for each conjunct. -/
theorem load_skip_and_first_of_run_witness :
    (load [none] = load []) ∧
    (load [some ⟨5, 0, 1, 10, 20⟩] = load []) ∧
    (load [some ⟨5, 3, 1, 0, 20⟩] = load []) ∧
    (load [some ⟨5, 3, 1, 10, 20⟩, some ⟨6, 3, 2, 11, 21⟩] =
      load [some ⟨5, 3, 1, 10, 20⟩]) := by
  have h := load_skip_and_first_of_run [] [] ⟨5, 0, 1, 10, 20⟩ ⟨5, 3, 1, 10, 20⟩
    ⟨6, 3, 2, 11, 21⟩
  refine ⟨h.1, ?_, ?_, h.2.2.2 (by decide) (by decide) (by decide)⟩
  · exact (load_skip_and_first_of_run [] [] ⟨5, 0, 1, 10, 20⟩ ⟨5, 3, 1, 10, 20⟩
      ⟨6, 3, 2, 11, 21⟩).2.1 (by decide)
  · exact (load_skip_and_first_of_run [] [] ⟨5, 3, 1, 0, 20⟩ ⟨5, 3, 1, 10, 20⟩
      ⟨6, 3, 2, 11, 21⟩).2.2.1 (by decide)

end ClaimNine

/-! ## Pass selector (`orbit.get_selected_passes`) -/

/-- The orbit reference dataset (`SWOT_orbit.nc`), restricted to the fields
read by `get_cycle_duration` and `get_selected_passes`: per-pass start and
end time offsets relative to cycle start, indexed by zero-based pass index. -/
structure OrbitDataset where
  start_time : List Int
  end_time : List Int
deriving Repr, DecidableEq

/-- Embedding of `orbit.get_cycle_duration`: `ds.end_time[-1] - ds.start_time[0]`. -/
def getCycleDuration (ds : OrbitDataset) : Int :=
  (ds.end_time.getLast?).getD 0 - (ds.start_time.head?).getD 0

/-- Modelled from the spec: `pyinterp.TemporalAxis.find_indexes` is an
external collaborator whose implementation is not part of this repository;
spec §4.3 step 1 specifies it as returning "the insertion index such that
`axis[index-1] ≤ value < axis[index]`; values before the first entry or
after the last map to the boundary index".  For a monotonic axis this is the
number of entries `≤ value`, clamped to the valid index range. -/
def findInsertIndex (a : List Int) (v : Int) : Nat :=
  min ((a.filter (fun t => decide (t ≤ v))).length) (a.length - 1)

/-- A row of the `pandas.DataFrame` returned by `get_selected_passes`. -/
structure PassRow where
  cycle_number : Nat
  pass_number : Nat
  first_measurement : Int
  last_measurement : Int
deriving Repr, DecidableEq

/-- numpy `np.repeat(l, P)`: each element repeated `P` times, order preserved. -/
def repeatEach (P : Nat) : List α → List α
  | [] => []
  | x :: xs => List.replicate P x ++ repeatEach P xs

/-- numpy `np.tile(l, n)`: the list repeated `n` times. -/
def tile (n : Nat) (l : List α) : List α :=
  (List.replicate n l).flatten

/-- numpy basic slicing `l[a:b]` with non-negative bounds. -/
def sliceList (l : List α) (a b : Nat) : List α :=
  (l.drop a).take (b - a)

/-- Embedding of `orbit.get_selected_passes`.  `searchDuration = none` models the Python
default `search_duration=None`; the Python expression
`search_duration or cycle_duration` replaces both `None` and a zero (falsy)
timedelta with the cycle duration. -/
def getSelectedPasses (ds : OrbitDataset) (cycles : List (Nat × Int)) (P : Nat)
    (date : Int) (searchDuration : Option Int) : List PassRow :=
  let cd := getCycleDuration ds
  let sd := match searchDuration with
    | none => cd
    | some d => if d = 0 then cd else d
  let axis := cycleAxisList cd cycles
  let i0 := findInsertIndex axis date
  let i1 := findInsertIndex axis (date + sd)
  let cycleNumbers := repeatEach P (List.range' (i0 + 1) (i1 - i0))
  let axisSlice := sliceList axis i0 (i1 + 1)
  let firstDateOfCycle := repeatEach P axisSlice
  let passNumbers := tile (i1 - i0) (List.range' 1 P)
  let passDates := (axisSlice.map (fun a => ds.start_time.map (fun s => s + a))).flatten
  let s0 := findInsertIndex passDates date
  let s1 := findInsertIndex passDates (date + sd)
  let cyc := sliceList cycleNumbers s0 s1
  let pas := sliceList passNumbers s0 s1
  let fdc := sliceList firstDateOfCycle s0 s1
  (cyc.zip (pas.zip fdc)).map
    (fun x => ⟨x.1, x.2.1, x.2.2, x.2.2⟩)

/-! ### Indexing lemmas for the selector arrays -/

theorem repeatEach_zero (l : List α) : repeatEach 0 l = [] := by
  induction l with
  | nil => rfl
  | cons x xs ih => simp [repeatEach, ih]

theorem repeatEach_getElem? {P : Nat} {l : List α} {j : Nat} {x : α}
    (h : (repeatEach P l)[j]? = some x) : l[j / P]? = some x := by
  cases P with
  | zero => rw [repeatEach_zero] at h; simp at h
  | succ P' =>
    induction l generalizing j with
    | nil => simp [repeatEach] at h
    | cons y ys ih =>
      rw [repeatEach] at h
      by_cases hj : j < P' + 1
      · rw [List.getElem?_append_left (by simpa using hj)] at h
        rw [List.getElem?_replicate, if_pos hj] at h
        rw [Nat.div_eq_of_lt hj]
        simpa using h
      · rw [List.getElem?_append_right (by simpa using Nat.le_of_not_lt hj)] at h
        rw [List.length_replicate] at h
        have hd : j / (P' + 1) = (j - (P' + 1)) / (P' + 1) + 1 :=
          Nat.div_eq_sub_div (Nat.succ_pos P') (Nat.le_of_not_lt hj)
        rw [hd, List.getElem?_cons_succ]
        exact ih h

theorem sliceList_getElem? {l : List α} {a b k : Nat} {x : α}
    (h : (sliceList l a b)[k]? = some x) : l[a + k]? = some x := by
  unfold sliceList at h
  by_cases hk : k < b - a
  · rw [List.getElem?_take_of_lt hk, List.getElem?_drop] at h
    exact h
  · rw [List.getElem?_take_eq_none (Nat.le_of_not_lt hk)] at h
    exact absurd h (by simp)

/-- Structure of a row of the final zip of `get_selected_passes`: the
`first_measurement` / `last_measurement` columns are both filled from the
`first_date_of_cycle` array, which repeats the cycle-axis slice, while
`cycle_number` repeats the shifted cycle range — so both measurement fields
equal the axis value at index `cycle_number - 1`. -/
theorem selected_rows_spec (axis : List Int) (f : Nat → Int)
    (haxis : axis = (List.range 200).map f) (P i0 i1 s0 s1 : Nat) (row : PassRow)
    (hrow : row ∈
      ((sliceList (repeatEach P (List.range' (i0 + 1) (i1 - i0))) s0 s1).zip
        ((sliceList (tile (i1 - i0) (List.range' 1 P)) s0 s1).zip
          (sliceList (repeatEach P (sliceList axis i0 (i1 + 1))) s0 s1))).map
        (fun x => (⟨x.1, x.2.1, x.2.2, x.2.2⟩ : PassRow))) :
    row.first_measurement = row.last_measurement ∧
    row.first_measurement = f (row.cycle_number - 1) := by
  rw [List.mem_map] at hrow
  obtain ⟨x, hx, hfx⟩ := hrow
  obtain ⟨k, hk⟩ := List.mem_iff_getElem?.mp hx
  rw [List.getElem?_zip_eq_some] at hk
  obtain ⟨hcyc, hrest⟩ := hk
  rw [List.getElem?_zip_eq_some] at hrest
  obtain ⟨-, hfdc⟩ := hrest
  have hcyc' := repeatEach_getElem? (sliceList_getElem? hcyc)
  have hfdc' := sliceList_getElem? (repeatEach_getElem? (sliceList_getElem? hfdc))
  rw [haxis] at hfdc'
  obtain ⟨hlen, hfval⟩ := List.getElem?_eq_some_iff.mp hfdc'
  rw [List.getElem_map, List.getElem_range] at hfval
  obtain ⟨hq, hcval⟩ := List.getElem?_eq_some_iff.mp hcyc'
  rw [List.getElem_range'] at hcval
  subst hfx
  refine ⟨rfl, ?_⟩
  simp only
  rw [← hfval, ← hcval]
  congr 1
  omega

section ClaimThree

/-! ### C3: measurement columns of `get_selected_passes` -/

/-- Claim C3: every row returned by `get_selected_passes` carries a
`cycle_number`, a `pass_number`, and `first_measurement` and
`last_measurement` fields that are equal copies of that row's cycle's
first-measurement time taken from the cycle axis (no pass-local offset
added). -/
theorem selected_passes_measurement_columns (ds : OrbitDataset)
    (cycles : List (Nat × Int)) (P : Nat) (date : Int) (sd : Option Int)
    (row : PassRow) (hrow : row ∈ getSelectedPasses ds cycles P date sd) :
    row.first_measurement = row.last_measurement ∧
    row.first_measurement =
      cycleAxis (getCycleDuration ds) cycles (row.cycle_number - 1) := by
  simp only [getSelectedPasses] at hrow
  exact selected_rows_spec _ (cycleAxis (getCycleDuration ds) cycles) rfl _ _ _ _ _ row hrow

set_option maxRecDepth 40000

/-- Witness for **C3**: with one pass per cycle, duration 10, the mapping
`{1 ↦ 0}` and query date 0, `get_selected_passes` returns the single row
`(cycle 2, pass 1, 10, 10)`. -/
theorem selected_passes_measurement_columns_witness :
    (⟨2, 1, 10, 10⟩ : PassRow).first_measurement =
        (⟨2, 1, 10, 10⟩ : PassRow).last_measurement ∧
    (⟨2, 1, 10, 10⟩ : PassRow).first_measurement =
      cycleAxis (getCycleDuration ⟨[0], [10]⟩) [(1, 0)]
        ((⟨2, 1, 10, 10⟩ : PassRow).cycle_number - 1) :=
  selected_passes_measurement_columns ⟨[0], [10]⟩ [(1, 0)] 1 0 none
    ⟨2, 1, 10, 10⟩ (by decide)

set_option maxRecDepth 512

end ClaimThree

section ClaimTen

/-! ### C10: a zero search duration behaves like an unspecified one -/

/-- Claim C10: in `get_selected_passes`, a `search_duration` equal to a zero
timedelta is treated the same as an unspecified duration: the falsy-`or`
expression `search_duration or cycle_duration` replaces it with the full
cycle duration, so a zero-length query window selects the passes of one
whole cycle instead of selecting none. -/
theorem zero_duration_same_as_default (ds : OrbitDataset) (cycles : List (Nat × Int))
    (P : Nat) (date : Int) :
    getSelectedPasses ds cycles P date (some 0) =
      getSelectedPasses ds cycles P date none := by
  simp [getSelectedPasses]

end ClaimTen

/-! ## Passage-time resolver (`orbit._get_time_bounds`)

Latitude samples are `Option Int` (`none` models a non-finite / NaN sample
excluded by `np.isfinite`); elapsed-time samples are `Int`; the intersection
boundary is its list of `(lon, lat)` vertices. -/

/-- numpy `np.searchsorted(a, v)` with the default `side='left'`: bisection
on `[lo, hi)`, returning the insertion point with `a[i-1] < v ≤ a[i]` when
`a` is sorted.  The first argument is structural fuel bounding the number of
loop iterations; every step shrinks the span `hi - lo`, so fuel equal to the
initial span is always enough. -/
def bisectLeft (a : List Int) (v : Int) : Nat → Nat → Nat → Nat
  | 0, lo, _ => lo
  | fuel + 1, lo, hi =>
    if lo < hi then
      let mid := (lo + hi) / 2
      if a.getD mid 0 < v then bisectLeft a v fuel (mid + 1) hi
      else bisectLeft a v fuel lo mid
    else lo

/-- numpy `np.searchsorted(a, v)` over the whole array. -/
def searchSorted (a : List Int) (v : Int) : Nat :=
  bisectLeft a v a.length 0 a.length

/-- Paired filtering of `_get_time_bounds`:
`selected_time = selected_time[np.isfinite(lat_nadir)]` and
`lat_nadir = lat_nadir[np.isfinite(lat_nadir)]`, kept as (latitude, time)
pairs. -/
def finitePairs (lat_nadir : List (Option Int)) (selected_time : List Int) :
    List (Int × Int) :=
  (lat_nadir.zip selected_time).filterMap (fun p => p.1.map (fun v => (v, p.2)))

/-- Embedding of `orbit._get_time_bounds`.  A Python `IndexError` (empty filtered arrays,
empty intersection, or an insertion point falling past the end of the time
array) is modelled as `none`. -/
def getTimeBounds (lat_nadir : List (Option Int)) (selected_time : List Int)
    (intersection : List (Int × Int)) : Option (Int × Int) :=
  let pairs0 := finitePairs lat_nadir selected_time
  match pairs0.head?, pairs0.getLast? with
  | some h0, some hL =>
    let pairs := if h0.1 > hL.1 then pairs0.reverse else pairs0
    let lats := pairs.map Prod.fst
    let times := pairs.map Prod.snd
    match intersection.head? with
    | none => none
    | some p0 =>
      let y0 := p0.2
      let y1 := if 1 < intersection.length then (intersection.getLast?.getD p0).2 else y0
      let t0 := searchSorted lats y0
      let t1 := searchSorted lats y1
      match times[min t0 t1]?, times[max t0 t1]? with
      | some b0, some b1 => some (min b0 b1, max b0 b1)
      | _, _ => none
  | _, _ => none

section ClaimFour

/-! ### C4: ordering of the returned time bounds -/

/-- Claim C4, counterexample: the claim "for every input with at least one
finite latitude sample the resolver returns a pair" is false: with the
single finite sample `lat_nadir = [0]`, `selected_time = [0]` and the
one-vertex intersection boundary at latitude 5, `np.searchsorted` returns
the insertion point 1 and `selected_time[1]` raises `IndexError`
(modelled as `none`), so no pair — let alone an equal pair — is returned. -/
theorem time_bounds_claim_false :
    ¬ (∀ (lat_nadir : List (Option Int)) (selected_time : List Int)
        (intersection : List (Int × Int)),
        lat_nadir.any Option.isSome = true → intersection ≠ [] →
        ∃ a b, getTimeBounds lat_nadir selected_time intersection = some (a, b)) := by
  intro h
  obtain ⟨a, b, hab⟩ := h [some 0] [0] [(0, 5)] (by decide) (by simp)
  rw [show getTimeBounds [some 0] [0] [(0, 5)] = none from by decide] at hab
  exact absurd hab (by simp)

/-- Claim C4, amended: whenever `_get_time_bounds` returns a pair (i.e. does
not raise), the pair satisfies `first_time ≤ last_time`; and when the
intersection boundary has exactly one vertex, any returned pair satisfies
`first_time = last_time`. -/
theorem time_bounds_ordered (lat_nadir : List (Option Int)) (selected_time : List Int)
    (intersection : List (Int × Int)) (a b : Int)
    (h : getTimeBounds lat_nadir selected_time intersection = some (a, b)) :
    a ≤ b ∧ (intersection.length = 1 → a = b) := by
  simp only [getTimeBounds] at h
  split at h
  · split at h
    · exact absurd h (by simp)
    · split at h
      · rename_i b0 b1 heq1 heq2
        rw [Option.some_inj, Prod.mk.injEq] at h
        obtain ⟨ha, hb⟩ := h
        constructor
        · rw [← ha, ← hb]
          exact min_le_max
        · intro hlen
          simp only [hlen, Nat.lt_irrefl, if_false, min_self, max_self] at heq1 heq2
          rw [heq1, Option.some_inj] at heq2
          rw [← ha, ← hb, heq2, min_self, max_self]
      · exact absurd h (by simp)
  · exact absurd h (by simp)

/-- Witness for **C4 (amended)**: an ascending two-sample profile and a
single-vertex intersection at latitude 5 resolve to the equal pair
`(200, 200)`. -/
theorem time_bounds_ordered_witness :
    (200 : Int) ≤ 200 ∧ ([((0 : Int), (5 : Int))].length = 1 → (200 : Int) = 200) :=
  time_bounds_ordered [some 0, some 10] [100, 200] [(0, 5)] 200 200 (by decide)

end ClaimFour

section ClaimFive

/-! ### C5: direction normalization -/

theorem zip_reverse {α β : Type} {l₁ : List α} {l₂ : List β}
    (h : l₁.length = l₂.length) :
    l₁.reverse.zip l₂.reverse = (l₁.zip l₂).reverse := by
  induction l₁ generalizing l₂ with
  | nil =>
    have : l₂ = [] := List.length_eq_zero.mp h.symm
    simp [this]
  | cons x xs ih =>
    cases l₂ with
    | nil => simp at h
    | cons y ys =>
      have hlen : xs.length = ys.length := by simpa using h
      simp only [List.reverse_cons]
      rw [List.zip_append (by simpa using hlen), ih hlen]
      simp

theorem finitePairs_reverse (lat_nadir : List (Option Int)) (selected_time : List Int)
    (h : lat_nadir.length = selected_time.length) :
    finitePairs lat_nadir.reverse selected_time.reverse =
      (finitePairs lat_nadir selected_time).reverse := by
  unfold finitePairs
  rw [zip_reverse h, List.filterMap_reverse]

/-- Claim C5, direction normalization: a descending pass (finite latitude
samples strictly decreasing along elapsed time) and the corresponding
ascending pass with the identical latitude-to-elapsed-time association
(i.e. both arrays reversed) yield the same result from `_get_time_bounds`
for every intersection boundary: the descending input is reversed by the
normalization step, the ascending one is not, and both continue with the
same normalized arrays. -/
theorem direction_normalization (lat_nadir : List (Option Int))
    (selected_time : List Int) (intersection : List (Int × Int))
    (hlen : lat_nadir.length = selected_time.length)
    (hdesc : ((finitePairs lat_nadir selected_time).map Prod.fst).Pairwise (· > ·))
    (h2 : 2 ≤ (finitePairs lat_nadir selected_time).length) :
    getTimeBounds lat_nadir.reverse selected_time.reverse intersection =
      getTimeBounds lat_nadir selected_time intersection := by
  have hrev : finitePairs lat_nadir.reverse selected_time.reverse =
      (finitePairs lat_nadir selected_time).reverse :=
    finitePairs_reverse _ _ hlen
  rcases hfp : finitePairs lat_nadir selected_time with _ | ⟨p0, _ | ⟨q0, rest⟩⟩
  · rw [hfp] at h2
    simp at h2
  · rw [hfp] at h2
    simp at h2
  · have hgl : (q0 :: rest).getLast? = some ((q0 :: rest).getLast (by simp)) :=
      List.getLast?_eq_getLast _ (by simp)
    have hzmem : (q0 :: rest).getLast (by simp) ∈ q0 :: rest := List.getLast_mem _
    have hlt : ((q0 :: rest).getLast (by simp)).1 < p0.1 := by
      rw [hfp] at hdesc
      simp only [List.map_cons, List.pairwise_cons] at hdesc
      exact hdesc.1 _ (List.mem_map_of_mem Prod.fst hzmem)
    simp only [getTimeBounds, hrev, hfp, List.head?_reverse, List.getLast?_reverse,
      List.getLast?_cons_cons, hgl, List.head?_cons]
    rw [if_neg (lt_asymm hlt), if_pos hlt]

/-- Witness for **C5**: the descending profile `[5, 3]` over times
`[10, 20]` and its reversal agree on the boundary `[(0, 4)]`. -/
theorem direction_normalization_witness :
    getTimeBounds ([some 5, some 3] : List (Option Int)).reverse
        ([10, 20] : List Int).reverse [(0, 4)] =
      getTimeBounds [some 5, some 3] [10, 20] [(0, 4)] :=
  direction_normalization [some 5, some 3] [10, 20] [(0, 4)]
    (by decide) (by decide) (by decide)

end ClaimFive

/-! ## Geometry step (`orbit.get_pass_passage_time`) -/

/-- Per-pass geometry and profile rows of the orbit dataset read by
`get_pass_passage_time` (`line_string_lon`, `line_string_lat`, `pass_time`,
`lat_nadir`), indexed by zero-based pass index; a non-finite coordinate
sample is `none`. -/
structure PassGeometry where
  line_lon : List (Option Int)
  line_lat : List (Option Int)
  pass_time : List Int
  lat_nadir : List (Option Int)

/-- The selected-area polygon, modelled by its intersection behaviour: the
external `pyinterp.geodetic.Polygon.intersection` maps a pass's line string
to the vertex list of the intersection geometry (empty when disjoint). -/
abbrev Poly : Type := List (Int × Int) → List (Int × Int)

/-- The finite-vertex line string of a pass:
`[Point(x, y) for x, y in zip(lon, lat) if isfinite(x) and isfinite(y)]`. -/
def lineStringOf (g : PassGeometry) : List (Int × Int) :=
  (g.line_lon.zip g.line_lat).filterMap (fun p =>
    match p.1, p.2 with
    | some x, some y => some (x, y)
    | _, _ => none)

/-- Python `sorted(set(l))`: insertion into a sorted duplicate-free list. -/
def insertSorted (x : Nat) : List Nat → List Nat
  | [] => [x]
  | y :: ys =>
    if x < y then x :: y :: ys
    else if x = y then y :: ys
    else y :: insertSorted x ys

/-- numpy `np.array(sorted(set(l)))`. -/
def sortedSet (l : List Nat) : List Nat := l.foldr insertSorted []

/-- A row of the passage-time table built by `get_pass_passage_time`. -/
structure PassageRow where
  pass_number : Nat
  first_time : Int
  last_time : Int
deriving Repr, DecidableEq

/-- One iteration of the loop of `get_pass_passage_time`: build the pass's
finite line string, intersect it with the polygon (no polygon: the full line
string is used), skip an empty intersection, otherwise append the resolved
time bounds.  `none` models an uncaught exception from `_get_time_bounds`. -/
def passageStep (polygon : Option Poly) (geom : Nat → PassGeometry)
    (acc : List PassageRow) (p : Nat) : Option (List PassageRow) :=
  let g := geom p
  let inter := match polygon with
    | some f => f (lineStringOf g)
    | none => lineStringOf g
  if inter.isEmpty then some acc
  else
    match getTimeBounds g.lat_nadir g.pass_time inter with
    | some (t0, t1) => some (acc ++ [⟨p + 1, t0, t1⟩])
    | none => none

/-- Embedding of `orbit.get_pass_passage_time`: loop over the distinct selected pass
indices (`sorted(set(selected_passes[pass_number])) - 1`). -/
def getPassPassageTime (polygon : Option Poly) (geom : Nat → PassGeometry)
    (selectedPasses : List PassRow) : Option (List PassageRow) :=
  ((sortedSet (selectedPasses.map (fun r => r.pass_number))).map (fun n => n - 1)).foldlM
    (passageStep polygon geom) []

/-! ## Query interface (`widgets.compute_selected_passes`) -/

/-- A row of the joined `selected_passes × pass_passage_time` table. -/
structure JoinedRow where
  cycle_number : Nat
  pass_number : Nat
  first_measurement : Int
  last_measurement : Int
  first_time : Int
  last_time : Int
deriving Repr, DecidableEq

/-- Embedding of the pandas right join
`selected_passes.join(pass_passage_time.set_index(pass_number),
on=pass_number, how=right)`: every row of the right (passage-time) table
joined with each left row sharing its pass number, in right-table order.  A
right key absent from the left table would yield an all-NaT row in pandas;
that case is unreachable here because the passage table's pass numbers are
drawn from the selected passes. -/
def rightJoin (left : List PassRow) (right : List PassageRow) : List JoinedRow :=
  right.flatMap (fun r =>
    (left.filter (fun l => l.pass_number == r.pass_number)).map (fun l =>
      ⟨l.cycle_number, l.pass_number, l.first_measurement, l.last_measurement,
        r.first_time, r.last_time⟩))

/-- Insertion step of `sort_values(by=[cycle_number, pass_number])`. -/
def insertJoined (r : JoinedRow) : List JoinedRow → List JoinedRow
  | [] => [r]
  | x :: xs =>
    if r.cycle_number < x.cycle_number ∨
        (r.cycle_number = x.cycle_number ∧ r.pass_number ≤ x.pass_number) then
      r :: x :: xs
    else x :: insertJoined r xs

/-- pandas `sort_values(by=[cycle_number, pass_number])`. -/
def sortJoined (l : List JoinedRow) : List JoinedRow := l.foldr insertJoined []

/-- pandas `.dt.floor` to whole seconds on a nanosecond timestamp. -/
def floorSec (x : Int) : Int := x.fdiv 1000000000 * 1000000000

/-- Embedding of `widgets.compute_selected_passes`: reject an absent area
(`ValueError` with message `No area selected.`) and a negative duration
(`InvalidDate` with message `First date must be before last date.`), then select the
passes, resolve the passage times, right-join on the pass number, sort by
(cycle, pass), add the per-pass passage offsets to the measurement columns
and floor them to whole seconds. -/
def computeSelectedPasses (selected_area : Option Poly) (first_date : Int)
    (search_duration : Int) (ds : OrbitDataset) (cycles : List (Nat × Int))
    (P : Nat) (geom : Nat → PassGeometry) : Except String (List PassRow) :=
  if selected_area.isNone then Except.error "No area selected."
  else if search_duration < 0 then
    Except.error "First date must be before last date."
  else
    match getPassPassageTime selected_area geom
        (getSelectedPasses ds cycles P first_date (some search_duration)) with
    | none => Except.error "IndexError"
    | some passageTimes =>
      Except.ok ((sortJoined (rightJoin
          (getSelectedPasses ds cycles P first_date (some search_duration))
          passageTimes)).map (fun j =>
        ⟨j.cycle_number, j.pass_number,
          floorSec (j.first_measurement + j.first_time),
          floorSec (j.last_measurement + j.last_time)⟩))

section ClaimSix

/-! ### C6: empty intersections are skipped, disjoint areas give empty results -/

theorem foldlM_passageStep_disjoint (f : Poly) (geom : Nat → PassGeometry)
    (hf : ∀ p, f (lineStringOf (geom p)) = []) (ps : List Nat)
    (acc : List PassageRow) :
    ps.foldlM (passageStep (some f) geom) acc = some acc := by
  induction ps generalizing acc with
  | nil => rfl
  | cons p rest ih =>
    rw [List.foldlM_cons]
    have hstep : passageStep (some f) geom acc p = some acc := by
      unfold passageStep
      simp [hf p]
    rw [hstep]
    simpa using ih acc

theorem getPassPassageTime_disjoint (f : Poly) (geom : Nat → PassGeometry)
    (selectedPasses : List PassRow) (hf : ∀ p, f (lineStringOf (geom p)) = []) :
    getPassPassageTime (some f) geom selectedPasses = some [] :=
  foldlM_passageStep_disjoint f geom hf _ []

/-- Claim C6: a candidate pass whose geometry has empty intersection with the
selected area produces no `PassageInterval` row, and this never raises: when
the area polygon is disjoint from all pass geometries,
`get_pass_passage_time` returns an empty table and
`compute_selected_passes` returns an empty result list without raising. -/
theorem disjoint_area_empty_result (f : Poly) (geom : Nat → PassGeometry)
    (ds : OrbitDataset) (cycles : List (Nat × Int)) (P : Nat) (date sd : Int)
    (selectedPasses : List PassRow)
    (hf : ∀ p, f (lineStringOf (geom p)) = []) (hsd : 0 ≤ sd) :
    getPassPassageTime (some f) geom selectedPasses = some [] ∧
    computeSelectedPasses (some f) date sd ds cycles P geom = Except.ok [] := by
  refine ⟨getPassPassageTime_disjoint f geom selectedPasses hf, ?_⟩
  unfold computeSelectedPasses
  rw [Option.isNone_some, if_neg (by simp), if_neg (by omega)]
  rw [getPassPassageTime_disjoint f geom _ hf]
  rfl

/-- Witness for **C6** with the everywhere-empty intersection. -/
theorem disjoint_area_empty_result_witness :
    getPassPassageTime (some (fun _ => [])) (fun _ => ⟨[], [], [], []⟩) [] = some [] ∧
    computeSelectedPasses (some (fun _ => [])) 0 1 ⟨[0], [10]⟩ [(1, 0)] 1
        (fun _ => ⟨[], [], [], []⟩) = Except.ok [] :=
  disjoint_area_empty_result (fun _ => []) (fun _ => ⟨[], [], [], []⟩) ⟨[0], [10]⟩
    [(1, 0)] 1 0 1 [] (fun _ => rfl) (by norm_num)

end ClaimSix

section ClaimSeven

/-! ### C7: default duration and the negative-duration error -/

/-- Claim C7: at the query interface, an unspecified `search_duration` defaults
to one cycle length (`get_selected_passes` with `None` computes exactly what
it computes for the cycle duration), and a negative `search_duration` is
surfaced by `compute_selected_passes` as the distinct invalid-date-range
error (`InvalidDate`) before any pass selection is performed — the error is
the same whatever the mission data, so no selection input is consulted. -/
theorem query_duration_default_and_negative (f : Poly) (ds : OrbitDataset)
    (cycles : List (Nat × Int)) (P : Nat) (geom : Nat → PassGeometry)
    (date sd : Int) (hsd : sd < 0) :
    getSelectedPasses ds cycles P date none =
      getSelectedPasses ds cycles P date (some (getCycleDuration ds)) ∧
    computeSelectedPasses (some f) date sd ds cycles P geom =
      Except.error "First date must be before last date." := by
  constructor
  · simp only [getSelectedPasses, ite_self]
  · unfold computeSelectedPasses
    rw [Option.isNone_some, if_neg (by simp), if_pos hsd]

/-- Witness for **C7** at duration `-1`. -/
theorem query_duration_default_and_negative_witness :
    getSelectedPasses ⟨[0], [10]⟩ [(1, 0)] 1 0 none =
      getSelectedPasses ⟨[0], [10]⟩ [(1, 0)] 1 0 (some (getCycleDuration ⟨[0], [10]⟩)) ∧
    computeSelectedPasses (some (fun ls => ls)) 0 (-1) ⟨[0], [10]⟩ [(1, 0)] 1
        (fun _ => ⟨[], [], [], []⟩) = Except.error "First date must be before last date." :=
  query_duration_default_and_negative (fun ls => ls) ⟨[0], [10]⟩ [(1, 0)] 1
    (fun _ => ⟨[], [], [], []⟩) 0 (-1) (by norm_num)

end ClaimSeven

section ClaimEight

/-! ### C8: absent selected area -/

/-- Claim C8, counterexample: at the query interface the absence of a selected
area is treated as an error, not as "everything matches":
`compute_selected_passes` raises `ValueError` with message `No area selected.` when the
area is `None`, so no result list — empty or not — is produced. -/
theorem absent_area_claim_false :
    ¬ ∃ rows, computeSelectedPasses none 0 1 ⟨[0], [10]⟩ [(1, 0)] 1
        (fun _ => ⟨[], [], [], []⟩) = Except.ok rows := by
  intro ⟨rows, h⟩
  exact absurd h (by simp [computeSelectedPasses])

/-- Claim C8, amended: in the geometry step (`get_pass_passage_time`), an
absent polygon behaves exactly like a whole-globe polygon whose intersection
with any line string is the full line string: every candidate pass's full
(finite-filtered) geometry is used and the results coincide.  The top-level
query interface `compute_selected_passes`, however, rejects an absent area
with an error before reaching the geometry step. -/
theorem absent_area_full_geometry (geom : Nat → PassGeometry)
    (selectedPasses : List PassRow) :
    getPassPassageTime none geom selectedPasses =
      getPassPassageTime (some (fun ls => ls)) geom selectedPasses := rfl

end ClaimEight

end SearchSwot
